import Mathlib

/-!
Verification of the Antigravity-Link core against its specification.

Part 1 models the CDP connection manager (`CDPController` in the source):
its field state, the `connected` getter, `send`, the `message`, `close`
and per-call timer handlers, `disconnect`, and `connect`.  Machine state
is embedded as a Lean structure; the asynchronous completion handles
(promise resolve/reject pairs) are embedded as an append-only settlement
log, so that "a pending call is rejected exactly once" becomes a
statement about occurrence counts in that log.

Part 2 models the input injector (`InputInjector` in the source):
`clickSend` retry loop, `waitForIdle`, `sendText`, and the two-phase
`waitForReply` polling state machine.  Real-time sleeps are embedded as
explicit clock advancement; the page is an oracle assigning to each
instant the values the injected bridge would report.
-/

/-- How a pending call's completion handle was settled.  `resolved`
models `resolve(msg.result)`, `peerError` models `reject(new
Error(msg.error.message))`, `timedOut` models the per-call timer's
rejection, and `connClosed` models the close handler's rejection with
`new Error('连接已断开')` (a connection-closed error). -/
inductive CallOutcome where
  | resolved
  | peerError
  | timedOut
  | connClosed
deriving DecidableEq

/-- The mutable fields of `CDPController`: `wsPresent` is `this.ws !==
null`, `wsOpen` is `this.ws.readyState === WebSocket.OPEN`, `messageId`
and `pending` are the fields of the same name (the pending map is kept
as its list of keys in insertion order), `connectedFlag` is
`this._connected`, `page` is `this._page` (as an abstract page id).
`sentFrames` records the correlation id of every frame written to the
socket, and `settled` is the settlement log of completion handles. -/
structure ConnState where
  wsPresent : Bool
  wsOpen : Bool
  messageId : Nat
  pending : List Nat
  connectedFlag : Bool
  page : Option Nat
  sentFrames : List Nat
  settled : List (Nat × CallOutcome)
deriving DecidableEq

/-- The constructor state: `messageId = 1`, empty pending map, not
connected, no socket, no page. -/
def initConn : ConnState :=
  { wsPresent := false, wsOpen := false, messageId := 1, pending := [],
    connectedFlag := false, page := none, sentFrames := [], settled := [] }

/-- The `connected` getter: `this._connected && this.ws &&
this.ws.readyState === WebSocket.OPEN`. -/
def connectedGetter (st : ConnState) : Bool :=
  st.connectedFlag && st.wsPresent && st.wsOpen

/-- Result of `send`: immediate rejection with the connection error
`'CDP 未连接'`, or a registered call with its correlation id. -/
inductive SendRes where
  | rejectedNotConnected
  | issued (id : Nat)
deriving DecidableEq

/-- `send(method, params, timeout)`: if the `connected` getter is false,
reject immediately without touching any state; otherwise take
`id = this.messageId++`, register the pending entry, and write the
frame to the socket. -/
def sendOp (st : ConnState) : ConnState × SendRes :=
  if connectedGetter st then
    ({ st with messageId := st.messageId + 1,
               pending := st.pending ++ [st.messageId],
               sentFrames := st.sentFrames ++ [st.messageId] },
     SendRes.issued st.messageId)
  else (st, SendRes.rejectedNotConnected)

/-- The `message` handler: a frame with a truthy `id` that is a key of
the pending map deletes the entry and settles it (`peerError` when the
frame carries `error`, else `resolved`); any other frame is ignored. -/
def onMessage (st : ConnState) (id : Nat) (isErr : Bool) : ConnState :=
  if id ≠ 0 ∧ id ∈ st.pending then
    { st with pending := st.pending.erase id,
              settled := st.settled ++ [(id, if isErr then CallOutcome.peerError else CallOutcome.resolved)] }
  else st

/-- The per-call timer callback: if the id is still pending, delete the
entry and reject with the timeout error; otherwise do nothing. -/
def onTimer (st : ConnState) (id : Nat) : ConnState :=
  if id ∈ st.pending then
    { st with pending := st.pending.erase id,
              settled := st.settled ++ [(id, CallOutcome.timedOut)] }
  else st

/-- The `close` handler: set `_connected = false`, reject every entry of
the pending map with the connection-closed error, and clear the map. -/
def onClose (st : ConnState) : ConnState :=
  { st with connectedFlag := false, wsOpen := false,
            settled := st.settled ++ st.pending.map (fun i => (i, CallOutcome.connClosed)),
            pending := [] }

/-- `disconnect()`: if a socket exists, close it and null the field;
then set `_connected = false`, `_page = null`, and clear the pending map
-- without settling any pending entry (the socket's own `close` event
fires asynchronously, after the map has already been cleared). -/
def disconnectOp (st : ConnState) : ConnState :=
  { st with wsPresent := false, wsOpen := false, connectedFlag := false,
            page := none, pending := [] }

/-- Result of a `connect` attempt: thrown invalid-page error, success
(the `open` handler ran), or the `error` handler ran and the promise was
rejected with the connection error. -/
inductive ConnectRes where
  | invalidPage
  | ok
  | connErr
deriving DecidableEq

/-- `connect(page)`: throw if the page lacks a debugger URL (no
mutation); otherwise, if a socket exists run `disconnect()` first; then
assign `this.ws = new WebSocket(wsUrl)` and either run the `open`
handler (`_connected = true`, `_page = page`) or the `error` handler
(`_connected = false`, promise rejected) -- in the failure case the new
dead socket stays assigned to `this.ws`. -/
def connectAttempt (st : ConnState) (pageValid : Bool) (pageId : Nat) (succ : Bool) :
    ConnState × ConnectRes :=
  if !pageValid then (st, ConnectRes.invalidPage)
  else
    let st1 := if st.wsPresent then disconnectOp st else st
    let st2 := { st1 with wsPresent := true, wsOpen := false }
    if succ then
      ({ st2 with wsOpen := true, connectedFlag := true, page := some pageId }, ConnectRes.ok)
    else
      ({ st2 with connectedFlag := false }, ConnectRes.connErr)

/-- Events a connection can undergo: an outgoing `send`, an inbound
response frame, a per-call timer firing, the transport `close` event, a
`disconnect()` call, and a `connect` attempt. -/
inductive Ev where
  | sendEv
  | msgEv (id : Nat) (isErr : Bool)
  | timerEv (id : Nat)
  | closeEv
  | discEv
  | connEv (pageValid : Bool) (pageId : Nat) (succ : Bool)

/-- One step of the connection under an event. -/
def step (st : ConnState) (e : Ev) : ConnState :=
  match e with
  | Ev.sendEv => (sendOp st).1
  | Ev.msgEv id isErr => onMessage st id isErr
  | Ev.timerEv id => onTimer st id
  | Ev.closeEv => onClose st
  | Ev.discEv => disconnectOp st
  | Ev.connEv pv pid s => (connectAttempt st pv pid s).1

/-- Run a sequence of events. -/
def run (st : ConnState) (evs : List Ev) : ConnState := evs.foldl step st

/-- The correlation ids appearing in the settlement log. -/
def settledIds (st : ConnState) : List Nat := st.settled.map Prod.fst

/-- How many times the completion handle of call `id` has been settled. -/
def settledCount (st : ConnState) (id : Nat) : Nat := (settledIds st).count id

/-- Connection invariant: the counter is at least 1, no id occurs twice
among pending and settled ids together (so a pending call has never been
settled, and no handle is ever settled twice), and every issued id is
below the counter. -/
def ConnInv (st : ConnState) : Prop :=
  1 ≤ st.messageId ∧
  (st.pending ++ settledIds st).Nodup ∧
  (∀ id ∈ st.pending, 1 ≤ id ∧ id < st.messageId) ∧
  (∀ id ∈ settledIds st, id < st.messageId)

instance (st : ConnState) : Decidable (ConnInv st) := by
  unfold ConnInv; infer_instance

/-!
Part 2: the input injector.  Bridge calls (`callBridge`) may return
`null`, hence the `Option` results; JavaScript truthiness of a string is
modelled as "non-empty".  Sleeps advance an explicit clock; oracles give
the value each bridge read would produce at each instant.
-/

/-- Result of the bridge operation `getLastBotText`: the latest agent
text and the count of visible agent messages. -/
structure BotData where
  text : String
  count : Nat
deriving DecidableEq

/-- Result of the bridge operation `checkError`. -/
structure ErrData where
  hasError : Bool
  errorText : String
deriving DecidableEq

/-- Result of the bridge operation `clickSend`: `{success, error?}`. -/
structure ClickRes where
  success : Bool
  error : Option String
deriving DecidableEq

/-- Result of the bridge operation `focusInput`. -/
structure FocusData where
  success : Bool
  error : Option String
deriving DecidableEq

/-- Page oracle for the waiting loops: the value `isSendVisible`,
`checkError` and `getLastBotText` would report at each instant
(milliseconds since the start of the call).  `none` models a `null`
return from `callBridge`. -/
structure WEnv where
  vis : Nat → Bool
  err : Nat → Option ErrData
  bot : Nat → Option BotData

/-- Environment for `setText`/`sendText`: the idle indicator over time,
the `focusInput` result, the `getInputText` readback, and the
`clickSend` result of each attempt. -/
structure InjEnv where
  vis : Nat → Bool
  focus : Option FocusData
  inputText : Option String
  click : Nat → Option ClickRes

/-- Outcome of `clickSend`: the bridge result returned on a successful
attempt, or the terminal failure object after exhausting retries. -/
inductive ClickOut where
  | ok (r : ClickRes)
  | failedOut (error : String)
deriving DecidableEq

/-- The terminal failure message of `clickSend`. -/
def clickSendFailMsg : String := "多次重试后未找到 Send 按钮"

/-- Truthiness of `result?.success` for a `callBridge('clickSend')`
return value (null is falsy). -/
def succAt (env : Nat → Option ClickRes) (i : Nat) : Bool :=
  match env i with
  | some r => r.success
  | none => false

/-- The `clickSend` retry loop: on each attempt call the bridge; return
its result as soon as it reports success; otherwise sleep 1000 ms
between consecutive attempts (`attempt < retries - 1`) and try again;
after the last attempt return the terminal failure.  Returns the
outcome, the number of attempts made, and the list of sleeps taken. -/
def clickSendAux (env : Nat → Option ClickRes) : Nat → Nat → ClickOut × Nat × List Nat
  | _, 0 => (ClickOut.failedOut clickSendFailMsg, 0, [])
  | attempt, remaining+1 =>
    match env attempt with
    | some r =>
      if r.success then (ClickOut.ok r, 1, [])
      else
        let k := clickSendAux env (attempt+1) remaining
        (k.1, k.2.1 + 1, if remaining = 0 then k.2.2 else 1000 :: k.2.2)
    | none =>
        let k := clickSendAux env (attempt+1) remaining
        (k.1, k.2.1 + 1, if remaining = 0 then k.2.2 else 1000 :: k.2.2)

/-- `clickSend(retries = 10)`. -/
def clickSendM (env : Nat → Option ClickRes) (retries : Nat) :
    ClickOut × Nat × List Nat :=
  clickSendAux env 0 retries

/-- The `waitForIdle` polling loop: check the idle indicator, return
success when it is visible, else sleep 1000 ms, until `timeout` elapses.
The fuel is one more than the largest possible number of iterations, so
it never runs out. -/
def waitForIdleAux (vis : Nat → Bool) (timeout : Nat) : Nat → Nat → Bool
  | 0, _ => false
  | fuel+1, t =>
    if t < timeout then
      if vis t then true
      else waitForIdleAux vis timeout fuel (t + 1000)
    else false

/-- `waitForIdle(timeout = 120000)`: true means `{success: true}`, false
means the timeout failure result. -/
def waitForIdleM (vis : Nat → Bool) (timeout : Nat) : Bool :=
  waitForIdleAux vis timeout (timeout / 1000 + 2) 0

/-- JavaScript `a || b` on an optional string (null and the empty string
are falsy). -/
def jsOrElse (o : Option String) (d : String) : String :=
  match o with
  | some s => if s = "" then d else s
  | none => d

/-- Result object of `setText`. -/
structure SetRes where
  success : Bool
  text : Option String
  error : Option String
deriving DecidableEq

/-- Steps `sendText`/`setText` perform, in order. -/
inductive Step where
  | waitIdleStep
  | clearStep
  | sleepStep (ms : Nat)
  | focusStep
  | insertTextStep (text : String)
  | readBackStep
  | clickStep
deriving DecidableEq

/-- `setText(text)`: clear the input (select-all + backspace key
events), settle 50 ms, focus; abort with the focus error (or the
fallback message) if focusing fails; otherwise insert the text via
`Input.insertText`, settle 100 ms, and read the text back.  Returns the
result object and the list of steps performed. -/
def setTextM (env : InjEnv) (text : String) : SetRes × List Step :=
  match env.focus with
  | some f =>
    if f.success then
      ({ success := true, text := env.inputText, error := none },
       [Step.clearStep, Step.sleepStep 50, Step.focusStep,
        Step.insertTextStep text, Step.sleepStep 100, Step.readBackStep])
    else
      ({ success := false, text := none, error := some (jsOrElse f.error "聚焦失败") },
       [Step.clearStep, Step.sleepStep 50, Step.focusStep])
  | none =>
      ({ success := false, text := none, error := some (jsOrElse none "聚焦失败") },
       [Step.clearStep, Step.sleepStep 50, Step.focusStep])

/-- Result object of `sendText`. -/
structure SendTextRes where
  success : Bool
  text : Option String
  error : Option String
deriving DecidableEq

/-- `sendText(text, delay = 300)`: first `await this.waitForIdle()` --
whose result is bound to no variable and discarded -- then `setText`;
on its failure return that failure; otherwise sleep `delay`, run
`clickSend()` and return `{success: sendResult.success, text,
error: sendResult.error}`. -/
def sendTextM (env : InjEnv) (text : String) (delay : Nat) :
    SendTextRes × List Step :=
  let _idle := waitForIdleM env.vis 120000
  let setPair := setTextM env text
  if setPair.1.success then
    let clickTriple := clickSendM env.click 10
    (match clickTriple.1 with
      | ClickOut.ok r => { success := r.success, text := some text, error := r.error }
      | ClickOut.failedOut e =>
          { success := false, text := some text, error := some e },
     Step.waitIdleStep :: setPair.2 ++ [Step.sleepStep delay, Step.clickStep])
  else
    ({ success := false, text := setPair.1.text, error := setPair.1.error },
     Step.waitIdleStep :: setPair.2)

/-- Phase 1 of `waitForReply`: wait (at most 5000 ms, checking every
500 ms) for the Send button to disappear; exits as soon as the
indicator is false, or when the 5000 ms sub-timeout elapses.  The fuel
11 exceeds the maximum 10 iterations, so it never runs out.  Returns
the time at which phase 2 starts. -/
def phase1Aux (vis : Nat → Bool) : Nat → Nat → Nat
  | 0, t => t
  | fuel+1, t =>
    if t < 5000 then
      if vis t then phase1Aux vis fuel (t + 500) else t
    else t

/-- Phase-1 exit time from t = 0. -/
def phase1End (vis : Nat → Bool) : Nat := phase1Aux vis 11 0

/-- The baseline agent-message count read before polling begins:
`beforeBot?.count || 0`. -/
def baselineOf (env : WEnv) : Nat :=
  match env.bot 0 with
  | some b => b.count
  | none => 0

/-- Outcome of `waitForReply`: `completed` is `{success:true, reply,
elapsed}`, `failed` is `{success:false, error, elapsed}` (server-side
error), `timedOut` is `{success:false, error, reply}` on overall
timeout. -/
inductive WOut where
  | completed (reply : String) (elapsed : Nat)
  | failed (error : String) (elapsed : Nat)
  | timedOut (error : String) (reply : Option String)
deriving DecidableEq

/-- The overall-timeout error message. -/
def timeoutMsg (timeout : Nat) : String := "等待超时 (" ++ toString timeout ++ "ms)"

/-- `text || null` of the best-effort final `getLastBotText` read. -/
def bestEffort (env : WEnv) (t : Nat) : Option String :=
  match env.bot t with
  | some b => if b.text = "" then none else some b.text
  | none => none

/-- The reply check after a stable idle observation: read
`getLastBotText`; return the Completed outcome when `(afterBot?.count >
beforeCount && afterBot?.text) || afterBot?.text` (string truthiness =
non-empty); otherwise keep polling. -/
def botCheck (env : WEnv) (beforeCount elapsed t : Nat) : Option WOut :=
  match env.bot t with
  | some b =>
    if (beforeCount < b.count ∧ b.text ≠ "") ∨ b.text ≠ "" then
      some (WOut.completed b.text elapsed)
    else none
  | none => none

/-- The post-debounce decision: check `checkError` first (a present
`hasError` returns the Failed outcome), then the reply check. -/
def decideAt (env : WEnv) (beforeCount elapsed t : Nat) : Option WOut :=
  match env.err t with
  | some e =>
    if e.hasError then some (WOut.failed e.errorText elapsed)
    else botCheck env beforeCount elapsed t
  | none => botCheck env beforeCount elapsed t

/-- Phase 2 of `waitForReply`: while `now - start < timeout`, sleep
`pollInterval`; if the idle indicator is visible, debounce 1500 ms and
recheck -- a flicker back to busy discards the observation and
continues polling; a stable idle observation runs the error check and
the reply check; when the loop guard fails, return the TimedOut outcome
with the best-effort reply.  Returns the outcome paired with the time
of return; `none` only on fuel exhaustion, which a positive
`pollInterval` and fuel `timeout + 1` rule out. -/
def loop2 (env : WEnv) (timeout pollInterval beforeCount : Nat) :
    Nat → Nat → Option (WOut × Nat)
  | 0, _ => none
  | fuel+1, t =>
    if t < timeout then
      if env.vis (t + pollInterval) then
        if env.vis (t + pollInterval + 1500) then
          match decideAt env beforeCount ((t + pollInterval + 500) / 1000)
              (t + pollInterval + 1500) with
          | some out => some (out, t + pollInterval + 1500)
          | none => loop2 env timeout pollInterval beforeCount fuel (t + pollInterval + 1500)
        else loop2 env timeout pollInterval beforeCount fuel (t + pollInterval + 1500)
      else loop2 env timeout pollInterval beforeCount fuel (t + pollInterval)
    else some (WOut.timedOut (timeoutMsg timeout) (bestEffort env t), t)

/-- `waitForReply(timeout = 120000, pollInterval = 2000)`: read the
baseline count at time 0, run phase 1, then phase 2. -/
def waitForReplyM (env : WEnv) (timeout : Nat) (pollInterval : Nat) :
    Option (WOut × Nat) :=
  loop2 env timeout pollInterval (baselineOf env) (timeout + 1) (phase1End env.vis)

/-- What each returned outcome of phase 2 guarantees: a Completed or
Failed outcome was produced by the post-debounce decision at the return
time with the idle indicator true there; a TimedOut outcome carries the
timeout message and the best-effort reply read at the return time, at
or past the overall timeout. -/
def loop2Sound (env : WEnv) (timeout beforeCount : Nat) (out : WOut) (rt : Nat) : Prop :=
  match out with
  | WOut.completed r e =>
      env.vis rt = true ∧ decideAt env beforeCount e rt = some (WOut.completed r e)
  | WOut.failed m e =>
      env.vis rt = true ∧ decideAt env beforeCount e rt = some (WOut.failed m e)
  | WOut.timedOut m rep =>
      m = timeoutMsg timeout ∧ rep = bestEffort env rt ∧ timeout ≤ rt

/-- "No server-side error signal at time t": `checkError` returned null
or `hasError` false. -/
def errClear (env : WEnv) (t : Nat) : Prop :=
  match env.err t with
  | some e => e.hasError = false
  | none => True


lemma run_nil (st : ConnState) : run st [] = st := rfl

lemma run_cons (st : ConnState) (e : Ev) (evs : List Ev) :
    run st (e :: evs) = run (step st e) evs := rfl

lemma settledIds_mk (st : ConnState) : settledIds st = st.settled.map Prod.fst := rfl

lemma connInv_disconnectOp {st : ConnState} (h : ConnInv st) : ConnInv (disconnectOp st) := by
  obtain ⟨h1, h2, h3, h4⟩ := h
  refine ⟨h1, ?_, by simp [disconnectOp], h4⟩
  simpa [disconnectOp, settledIds] using h2.of_append_right

lemma connInv_sendOp {st : ConnState} (h : ConnInv st) : ConnInv (sendOp st).1 := by
  obtain ⟨h1, h2, h3, h4⟩ := h
  by_cases hc : connectedGetter st
  · have hm : st.messageId ∉ st.pending ++ settledIds st := by
      intro hmem
      rcases List.mem_append.1 hmem with hp | hs
      · exact absurd ((h3 _ hp).2) (lt_irrefl _)
      · exact absurd (h4 _ hs) (lt_irrefl _)
    have key : ((st.pending ++ [st.messageId]) ++ settledIds st).Nodup :=
      ((List.perm_append_singleton _ _).append_right _).nodup_iff.2
        (List.nodup_cons.2 ⟨hm, h2⟩)
    simp only [sendOp, hc, if_true]
    refine ⟨Nat.le_succ_of_le h1, ?_, ?_, ?_⟩
    · simpa [settledIds] using key
    · intro j hj
      have hj' : j ∈ st.pending ++ [st.messageId] := hj
      rcases List.mem_append.1 hj' with hp | hs
      · exact ⟨(h3 _ hp).1, Nat.lt_succ_of_lt (h3 _ hp).2⟩
      · have : j = st.messageId := List.mem_singleton.1 hs
        subst this
        exact ⟨h1, Nat.lt_succ_self _⟩
    · intro j hj
      have hj' : j ∈ settledIds st := hj
      exact Nat.lt_succ_of_lt (h4 _ hj')
  · simp only [sendOp, hc, if_false]
    exact ⟨h1, h2, h3, h4⟩

lemma connInv_settle {st : ConnState} (id : Nat) (c : CallOutcome)
    (h : ConnInv st) (hid : id ∈ st.pending) :
    ConnInv { st with pending := st.pending.erase id,
                      settled := st.settled ++ [(id, c)] } := by
  obtain ⟨h1, h2, h3, h4⟩ := h
  have hperm1 : List.Perm (st.pending ++ settledIds st)
      (id :: (st.pending.erase id ++ settledIds st)) :=
    (List.perm_cons_erase hid).append_right _
  obtain ⟨hnot, hnd⟩ := List.nodup_cons.1 (hperm1.nodup_iff.1 h2)
  have key : (st.pending.erase id ++ (settledIds st ++ [id])).Nodup := by
    rw [← List.append_assoc]
    exact (List.perm_append_singleton _ _).nodup_iff.2 (List.nodup_cons.2 ⟨hnot, hnd⟩)
  refine ⟨h1, ?_, ?_, ?_⟩
  · simpa [settledIds] using key
  · intro j hj
    have hj' : j ∈ st.pending.erase id := hj
    exact h3 _ (List.mem_of_mem_erase hj')
  · intro j hj
    have hj' : j ∈ settledIds st ++ [id] := by
      simpa [settledIds] using hj
    rcases List.mem_append.1 hj' with hs | hs
    · exact h4 _ hs
    · have : j = id := List.mem_singleton.1 hs
      subst this
      exact (h3 _ hid).2

lemma connInv_onMessage {st : ConnState} (id : Nat) (isErr : Bool)
    (h : ConnInv st) : ConnInv (onMessage st id isErr) := by
  unfold onMessage
  by_cases hc : id ≠ 0 ∧ id ∈ st.pending
  · rw [if_pos hc]; exact connInv_settle id _ h hc.2
  · rw [if_neg hc]; exact h

lemma connInv_onTimer {st : ConnState} (id : Nat) (h : ConnInv st) :
    ConnInv (onTimer st id) := by
  unfold onTimer
  by_cases hc : id ∈ st.pending
  · rw [if_pos hc]; exact connInv_settle id _ h hc
  · rw [if_neg hc]; exact h

lemma settledIds_onClose (st : ConnState) :
    settledIds (onClose st) = settledIds st ++ st.pending := by
  simp [onClose, settledIds, Function.comp_def]

lemma connInv_onClose {st : ConnState} (h : ConnInv st) : ConnInv (onClose st) := by
  obtain ⟨h1, h2, h3, h4⟩ := h
  have hnd : (settledIds st ++ st.pending).Nodup :=
    (@List.perm_append_comm Nat st.pending (settledIds st)).nodup_iff.1 h2
  refine ⟨h1, ?_, ?_, ?_⟩
  · have hp : (onClose st).pending = [] := rfl
    rw [hp, List.nil_append, settledIds_onClose]
    exact hnd
  · intro j hj
    have hj' : j ∈ ([] : List Nat) := hj
    simp at hj'
  · intro j hj
    have hj' : j ∈ settledIds st ++ st.pending := by
      rw [← settledIds_onClose]; exact hj
    rcases List.mem_append.1 hj' with hs | hp
    · exact h4 _ hs
    · exact (h3 _ hp).2

lemma connInv_connectAttempt {st : ConnState} (pv : Bool) (pid : Nat) (succ : Bool)
    (h : ConnInv st) : ConnInv (connectAttempt st pv pid succ).1 := by
  have hbase : ConnInv (if st.wsPresent then disconnectOp st else st) := by
    by_cases hw : st.wsPresent
    · rw [if_pos hw]; exact connInv_disconnectOp h
    · rw [if_neg hw]; exact h
  obtain ⟨g1, g2, g3, g4⟩ := hbase
  unfold connectAttempt
  by_cases hpv : pv
  · simp only [hpv, Bool.not_true, if_false]
    by_cases hs : succ
    · simp only [hs, if_true]
      exact ⟨g1, g2, g3, g4⟩
    · simp only [hs, if_false]
      exact ⟨g1, g2, g3, g4⟩
  · simp only [hpv, Bool.not_false, if_true]
    exact h
lemma connInv_step {st : ConnState} (e : Ev) (h : ConnInv st) : ConnInv (step st e) := by
  cases e with
  | sendEv => exact connInv_sendOp h
  | msgEv id isErr => exact connInv_onMessage id isErr h
  | timerEv id => exact connInv_onTimer id h
  | closeEv => exact connInv_onClose h
  | discEv => exact connInv_disconnectOp h
  | connEv pv pid s => exact connInv_connectAttempt pv pid s h

lemma connInv_run {st : ConnState} (evs : List Ev) (h : ConnInv st) :
    ConnInv (run st evs) := by
  induction evs generalizing st with
  | nil => exact h
  | cons e evs ih => exact ih (connInv_step e h)

lemma connInv_initConn : ConnInv initConn := by decide

lemma frozen_step (st : ConnState) (e : Ev) (id : Nat)
    (hlt : id < st.messageId) (hnp : id ∉ st.pending) :
    settledCount (step st e) id = settledCount st id ∧
    id < (step st e).messageId ∧ id ∉ (step st e).pending := by
  cases e with
  | sendEv =>
    by_cases hc : connectedGetter st
    · simp only [step, sendOp, hc, if_true]
      refine ⟨rfl, Nat.lt_succ_of_lt hlt, ?_⟩
      intro hmem
      have hmem' : id ∈ st.pending ++ [st.messageId] := hmem
      rcases List.mem_append.1 hmem' with hp | hs
      · exact hnp hp
      · exact absurd (List.mem_singleton.1 hs) (Nat.ne_of_lt hlt)
    · simp only [step, sendOp, hc, if_false]
      exact ⟨rfl, hlt, hnp⟩
  | msgEv j isErr =>
    simp only [step]
    unfold onMessage
    by_cases hc : j ≠ 0 ∧ j ∈ st.pending
    · have hij : id ≠ j := by
        intro hh; subst hh; exact hnp hc.2
      rw [if_pos hc]
      refine ⟨?_, hlt, ?_⟩
      · simp [settledCount, settledIds, List.count_append, hij]
      · intro hmem
        exact hnp (List.mem_of_mem_erase hmem)
    · rw [if_neg hc]
      exact ⟨rfl, hlt, hnp⟩
  | timerEv j =>
    simp only [step]
    unfold onTimer
    by_cases hc : j ∈ st.pending
    · have hij : id ≠ j := by
        intro hh; subst hh; exact hnp hc
      rw [if_pos hc]
      refine ⟨?_, hlt, ?_⟩
      · simp [settledCount, settledIds, List.count_append, hij]
      · intro hmem
        exact hnp (List.mem_of_mem_erase hmem)
    · rw [if_neg hc]
      exact ⟨rfl, hlt, hnp⟩
  | closeEv =>
    simp only [step]
    refine ⟨?_, hlt, ?_⟩
    · have : settledCount (onClose st) id =
          settledCount st id + st.pending.count id := by
        simp [settledCount, settledIds_onClose, List.count_append]
      rw [this, List.count_eq_zero.2 hnp]
      omega
    · intro hmem
      have : id ∈ ([] : List Nat) := hmem
      simp at this
  | discEv =>
    simp only [step, disconnectOp]
    refine ⟨rfl, hlt, ?_⟩
    intro hmem
    have : id ∈ ([] : List Nat) := hmem
    simp at this
  | connEv pv pid s =>
    simp only [step]
    unfold connectAttempt
    by_cases hpv : pv
    · have hbase : settledCount (if st.wsPresent then disconnectOp st else st) id =
          settledCount st id ∧
          id < (if st.wsPresent then disconnectOp st else st).messageId ∧
          id ∉ (if st.wsPresent then disconnectOp st else st).pending := by
        by_cases hw : st.wsPresent
        · rw [if_pos hw]
          refine ⟨rfl, hlt, ?_⟩
          intro hmem
          have : id ∈ ([] : List Nat) := hmem
          simp at this
        · rw [if_neg hw]
          exact ⟨rfl, hlt, hnp⟩
      obtain ⟨b1, b2, b3⟩ := hbase
      simp only [hpv, Bool.not_true, if_false]
      by_cases hs : s
      · simp only [hs, if_true]
        exact ⟨b1, b2, b3⟩
      · simp only [hs, if_false]
        exact ⟨b1, b2, b3⟩
    · have hpv' : pv = false := by simpa using hpv
      subst hpv'
      exact ⟨rfl, hlt, hnp⟩

lemma frozen_run (id : Nat) (evs : List Ev) :
    ∀ st : ConnState, id < st.messageId → id ∉ st.pending →
    settledCount (run st evs) id = settledCount st id ∧
    id < (run st evs).messageId ∧ id ∉ (run st evs).pending := by
  induction evs with
  | nil => intro st h1 h2; exact ⟨rfl, h1, h2⟩
  | cons e evs ih =>
    intro st h1 h2
    obtain ⟨s1, s2, s3⟩ := frozen_step st e id h1 h2
    obtain ⟨r1, r2, r3⟩ := ih (step st e) s2 s3
    exact ⟨r1.trans s1, r2, r3⟩

lemma frames_step (st : ConnState) (e : Ev)
    (h : st.sentFrames = List.range' 1 (st.messageId - 1) ∧ 1 ≤ st.messageId) :
    (step st e).sentFrames = List.range' 1 ((step st e).messageId - 1) ∧
    1 ≤ (step st e).messageId := by
  obtain ⟨hf, h1⟩ := h
  cases e with
  | sendEv =>
    by_cases hc : connectedGetter st
    · simp only [step, sendOp, hc, if_true]
      constructor
      · show st.sentFrames ++ [st.messageId] = List.range' 1 (st.messageId + 1 - 1)
        have hm : st.messageId + 1 - 1 = (st.messageId - 1) + 1 := by omega
        rw [hm, List.range'_concat, ← hf]
        have : 1 + 1 * (st.messageId - 1) = st.messageId := by omega
        rw [this]
      · exact Nat.le_succ_of_le h1
    · simp only [step, sendOp, hc, if_false]
      exact ⟨hf, h1⟩
  | msgEv j isErr =>
    simp only [step]
    unfold onMessage
    by_cases hc : j ≠ 0 ∧ j ∈ st.pending
    · rw [if_pos hc]; exact ⟨hf, h1⟩
    · rw [if_neg hc]; exact ⟨hf, h1⟩
  | timerEv j =>
    simp only [step]
    unfold onTimer
    by_cases hc : j ∈ st.pending
    · rw [if_pos hc]; exact ⟨hf, h1⟩
    · rw [if_neg hc]; exact ⟨hf, h1⟩
  | closeEv => exact ⟨hf, h1⟩
  | discEv => exact ⟨hf, h1⟩
  | connEv pv pid s =>
    simp only [step]
    unfold connectAttempt
    by_cases hpv : pv
    · have hbase : (if st.wsPresent then disconnectOp st else st).sentFrames =
          List.range' 1 ((if st.wsPresent then disconnectOp st else st).messageId - 1) ∧
          1 ≤ (if st.wsPresent then disconnectOp st else st).messageId := by
        by_cases hw : st.wsPresent
        · rw [if_pos hw]; exact ⟨hf, h1⟩
        · rw [if_neg hw]; exact ⟨hf, h1⟩
      obtain ⟨b1, b2⟩ := hbase
      simp only [hpv, Bool.not_true, if_false]
      by_cases hs : s
      · simp only [hs, if_true]; exact ⟨b1, b2⟩
      · simp only [hs, if_false]; exact ⟨b1, b2⟩
    · simp only [hpv, Bool.not_false, if_true]
      exact ⟨hf, h1⟩

lemma frames_run (evs : List Ev) :
    (run initConn evs).sentFrames =
      List.range' 1 ((run initConn evs).messageId - 1) ∧
    1 ≤ (run initConn evs).messageId := by
  have base : initConn.sentFrames = List.range' 1 (initConn.messageId - 1) ∧
      1 ≤ initConn.messageId := by decide
  clear base
  suffices h : ∀ st : ConnState,
      (st.sentFrames = List.range' 1 (st.messageId - 1) ∧ 1 ≤ st.messageId) →
      (run st evs).sentFrames = List.range' 1 ((run st evs).messageId - 1) ∧
      1 ≤ (run st evs).messageId by
    exact h initConn (by decide)
  induction evs with
  | nil => intro st h; exact h
  | cons e evs ih => intro st h; exact ih (step st e) (frames_step st e h)

lemma count_pair_map (l : List Nat) (id : Nat) (c : CallOutcome) :
    (l.map (fun i => (i, c))).count (id, c) = l.count id := by
  induction l with
  | nil => rfl
  | cons a l ih => simp [List.count_cons, ih, Prod.ext_iff]

/-- C1 counterexample: reach, from a fresh controller, a connected state
with one outstanding pending call (id 1), then call `disconnect()` and
let the socket's asynchronous `close` event fire afterwards.  The pending
map becomes empty, yet the call's completion handle is settled zero
times -- it is never rejected with a ConnectionError, contradicting the
claim that `disconnect()` rejects each outstanding call exactly once. -/
theorem c1_counterexample :
    run initConn [Ev.connEv true 1 true, Ev.sendEv] =
      (⟨true, true, 2, [1], true, some 1, [1], []⟩ : ConnState) ∧
    (1 : Nat) ∈ ((⟨true, true, 2, [1], true, some 1, [1], []⟩ : ConnState)).pending ∧
    (disconnectOp ⟨true, true, 2, [1], true, some 1, [1], []⟩).pending = [] ∧
    settledCount
      (run (⟨true, true, 2, [1], true, some 1, [1], []⟩ : ConnState)
        [Ev.discEv, Ev.closeEv]) 1 = 0 := by
  decide

/-- C1 (amended): a peer-initiated transport closure (the `close` event
firing while the pending map is intact) rejects each of the k
outstanding calls exactly once with the connection-closed error, leaves
the pending map empty, the connection disconnected, and no further event
can ever settle those calls again.  Calling `disconnect()`, by contrast,
empties the pending map and disconnects but settles none of the k
outstanding calls, and no subsequent event (including the asynchronous
`close` that follows) ever settles them: they stay unresolved forever. -/
theorem c1_closure_rejections (st : ConnState) (hInv : ConnInv st) (evs : List Ev) :
    ((onClose st).pending = [] ∧ connectedGetter (onClose st) = false ∧
      ∀ id ∈ st.pending,
        (onClose st).settled.count (id, CallOutcome.connClosed) = 1 ∧
        settledCount (run (onClose st) evs) id = 1) ∧
    ((disconnectOp st).pending = [] ∧ (disconnectOp st).settled = st.settled ∧
      connectedGetter (disconnectOp st) = false ∧
      ∀ id ∈ st.pending, settledCount (run (disconnectOp st) evs) id = 0) := by
  obtain ⟨h1, h2, h3, h4⟩ := hInv
  have hdis := List.disjoint_of_nodup_append h2
  constructor
  · refine ⟨rfl, by simp [connectedGetter, onClose], ?_⟩
    intro id hid
    have hnot : id ∉ settledIds st := fun hs => hdis hid hs
    have hcount0 : settledCount st id = 0 := List.count_eq_zero.2 hnot
    have hpcount : st.pending.count id = 1 :=
      List.count_eq_one_of_mem h2.of_append_left hid
    have hclose1 : settledCount (onClose st) id = 1 := by
      have : settledCount (onClose st) id =
          settledCount st id + st.pending.count id := by
        simp [settledCount, settledIds_onClose, List.count_append]
      rw [this, hcount0, hpcount]
    constructor
    · have hz : st.settled.count (id, CallOutcome.connClosed) = 0 := by
        refine List.count_eq_zero.2 ?_
        intro hmem
        exact hnot (List.mem_map_of_mem Prod.fst hmem)
      have hm : (st.pending.map (fun i => (i, CallOutcome.connClosed))).count
          (id, CallOutcome.connClosed) = st.pending.count id :=
        count_pair_map st.pending id CallOutcome.connClosed
      have : (onClose st).settled =
          st.settled ++ st.pending.map (fun i => (i, CallOutcome.connClosed)) := rfl
      rw [this, List.count_append, hz, hm, hpcount]
    · have hfr := frozen_run id evs (onClose st) (h3 _ hid).2 (by
        intro hmem
        have : id ∈ ([] : List Nat) := hmem
        simp at this)
      rw [hfr.1, hclose1]
  · refine ⟨rfl, rfl, by simp [connectedGetter, disconnectOp], ?_⟩
    intro id hid
    have hnot : id ∉ settledIds st := fun hs => hdis hid hs
    have hfr := frozen_run id evs (disconnectOp st) (h3 _ hid).2 (by
      intro hmem
      have : id ∈ ([] : List Nat) := hmem
      simp at this)
    rw [hfr.1]
    exact List.count_eq_zero.2 hnot

/-- C1 witness: the amended theorem applied to the reachable state with
one pending call, peer-close case. -/
theorem c1_closure_rejections_witness :
    (onClose ⟨true, true, 2, [1], true, some 1, [1], []⟩).settled.count
      (1, CallOutcome.connClosed) = 1 ∧
    settledCount (run (onClose ⟨true, true, 2, [1], true, some 1, [1], []⟩)
      [Ev.sendEv]) 1 = 1 :=
  ((c1_closure_rejections ⟨true, true, 2, [1], true, some 1, [1], []⟩
    (by decide) [Ev.sendEv]).1.2.2 1 (by decide))

/-- C2: if the per-call timer for a pending call `id` fires first, the
call is settled with the timeout error and removed from the pending map,
and a response frame for that correlation id arriving afterwards leaves
the state completely unchanged (silently dropped): no waiter is touched
and the connection state is unaffected. -/
theorem c2_timeout_then_late_response (st : ConnState) (id : Nat)
    (hInv : ConnInv st) (hmem : id ∈ st.pending) :
    (onTimer st id).settled = st.settled ++ [(id, CallOutcome.timedOut)] ∧
    id ∉ (onTimer st id).pending ∧
    (∀ isErr : Bool, onMessage (onTimer st id) id isErr = onTimer st id) := by
  obtain ⟨h1, h2, h3, h4⟩ := hInv
  have hnd : st.pending.Nodup := h2.of_append_left
  have hne : id ∉ (onTimer st id).pending := by
    unfold onTimer
    rw [if_pos hmem]
    intro hc
    have hc' : id ∈ st.pending.erase id := hc
    exact ((hnd.mem_erase_iff).1 hc').1 rfl
  refine ⟨?_, hne, ?_⟩
  · unfold onTimer
    rw [if_pos hmem]
  · intro isErr
    unfold onMessage
    rw [if_neg]
    rintro ⟨-, hmem'⟩
    exact hne hmem'

/-- C2 witness: concrete connected state with pending call 1; the timer
fires, then a late response for id 1 arrives and is dropped. -/
theorem c2_timeout_then_late_response_witness :
    (onTimer ⟨true, true, 2, [1], true, some 1, [1], []⟩ 1).settled =
      [] ++ [(1, CallOutcome.timedOut)] ∧
    (1 : Nat) ∉ (onTimer ⟨true, true, 2, [1], true, some 1, [1], []⟩ 1).pending ∧
    (∀ isErr : Bool,
      onMessage (onTimer ⟨true, true, 2, [1], true, some 1, [1], []⟩ 1) 1 isErr =
        onTimer ⟨true, true, 2, [1], true, some 1, [1], []⟩ 1) :=
  c2_timeout_then_late_response ⟨true, true, 2, [1], true, some 1, [1], []⟩ 1
    (by decide) (by decide)

/-- C6 counterexample: on a fresh controller (no existing socket), a
connect attempt whose transport establishment fails surfaces the
connection error but leaves `this.ws` holding the new dead socket --
the ws field, part of the connection's state, has been mutated by the
failed attempt (from null to a present socket). -/
theorem c6_counterexample :
    (connectAttempt initConn true 7 false).2 = ConnectRes.connErr ∧
    (connectAttempt initConn true 7 false).1 ≠ initConn ∧
    (connectAttempt initConn true 7 false).1.wsPresent = true ∧
    initConn.wsPresent = false := by
  decide

/-- C6 (amended): a failed connect attempt surfaces the connection
error and leaves the pending map, page, correlation counter, frame log
and settlement log unchanged, with the observable `connected` getter
false -- but the transport handle field ends up holding the failed
socket rather than its previous value.  Tearing down a previous
connection (via `disconnect()`) happens exactly when a socket already
exists: with no existing socket the attempt is equivalent to itself,
and with one the whole attempt equals the attempt performed after the
teardown. -/
theorem c6_connect_failure_state (st : ConnState) (pid : Nat) :
    (st.wsPresent = false →
      (connectAttempt st true pid false).2 = ConnectRes.connErr ∧
      (connectAttempt st true pid false).1.pending = st.pending ∧
      (connectAttempt st true pid false).1.page = st.page ∧
      (connectAttempt st true pid false).1.messageId = st.messageId ∧
      (connectAttempt st true pid false).1.settled = st.settled ∧
      (connectAttempt st true pid false).1.sentFrames = st.sentFrames ∧
      connectedGetter (connectAttempt st true pid false).1 = false ∧
      (connectAttempt st true pid false).1.wsPresent = true) ∧
    (st.wsPresent = true → ∀ succ : Bool,
      connectAttempt st true pid succ = connectAttempt (disconnectOp st) true pid succ) := by
  constructor
  · intro hw
    unfold connectAttempt
    simp [hw, connectedGetter]
  · intro hw succ
    unfold connectAttempt disconnectOp
    simp [hw]

/-- C6 witness: fresh controller, failed attempt. -/
theorem c6_connect_failure_state_witness :
    (connectAttempt initConn true 7 false).2 = ConnectRes.connErr ∧
    (connectAttempt initConn true 7 false).1.pending = initConn.pending ∧
    (connectAttempt initConn true 7 false).1.page = initConn.page ∧
    (connectAttempt initConn true 7 false).1.messageId = initConn.messageId ∧
    (connectAttempt initConn true 7 false).1.settled = initConn.settled ∧
    (connectAttempt initConn true 7 false).1.sentFrames = initConn.sentFrames ∧
    connectedGetter (connectAttempt initConn true 7 false).1 = false ∧
    (connectAttempt initConn true 7 false).1.wsPresent = true :=
  (c6_connect_failure_state initConn 7).1 rfl

/-- C8: along any event sequence from a fresh controller, the
correlation ids written to the socket are exactly 1, 2, 3, ... in
order: strictly increasing, unique, starting at 1, and never reused --
resolving, timing out, rejecting, or even reconnecting never reissues
an id. -/
theorem c8_correlation_ids (evs : List Ev) :
    (run initConn evs).sentFrames =
      List.range' 1 ((run initConn evs).sentFrames.length) ∧
    List.Chain' (· < ·) (run initConn evs).sentFrames ∧
    (run initConn evs).sentFrames.Nodup := by
  obtain ⟨hf, h1⟩ := frames_run evs
  have hlen : (run initConn evs).sentFrames.length =
      (run initConn evs).messageId - 1 := by
    rw [hf]; simp
  refine ⟨?_, ?_, ?_⟩
  · rw [hlen]; exact hf
  · rw [hf]; exact (List.pairwise_lt_range' _ _).chain'
  · rw [hf]; exact List.nodup_range' _ _

/-- C9: a `send` issued while the `connected` getter is false rejects
immediately with the connection error, registers no pending call,
writes nothing to the transport, and leaves the whole state untouched. -/
theorem c9_send_while_disconnected (st : ConnState)
    (h : connectedGetter st = false) :
    sendOp st = (st, SendRes.rejectedNotConnected) ∧
    (sendOp st).1.pending = st.pending ∧
    (sendOp st).1.sentFrames = st.sentFrames := by
  have : sendOp st = (st, SendRes.rejectedNotConnected) := by
    unfold sendOp
    simp [h]
  exact ⟨this, by rw [this], by rw [this]⟩

/-- C9 witness: a fresh controller is not connected; a send there is
rejected and changes nothing. -/
theorem c9_send_while_disconnected_witness :
    sendOp initConn = (initConn, SendRes.rejectedNotConnected) ∧
    (sendOp initConn).1.pending = initConn.pending ∧
    (sendOp initConn).1.sentFrames = initConn.sentFrames :=
  c9_send_while_disconnected initConn rfl

lemma clickSendAux_all_fail (env : Nat → Option ClickRes) :
    ∀ remaining attempt,
    (∀ i, i < remaining → succAt env (attempt + i) = false) →
    clickSendAux env attempt remaining =
      (ClickOut.failedOut clickSendFailMsg, remaining,
       List.replicate (remaining - 1) 1000) := by
  intro remaining
  induction remaining with
  | zero => intro attempt _; rfl
  | succ r ih =>
    intro attempt h
    have h0 : succAt env attempt = false := by
      have := h 0 (Nat.succ_pos r)
      simpa using this
    have hrec := ih (attempt + 1) (by
      intro i hi
      have := h (i + 1) (by omega)
      have harr : attempt + (i + 1) = attempt + 1 + i := by omega
      rwa [harr] at this)
    unfold clickSendAux
    cases he : env attempt with
    | some rr =>
      have hrs : rr.success = false := by
        unfold succAt at h0
        rwa [he] at h0
      dsimp only
      rw [hrs]
      simp only [Bool.false_eq_true, if_false]
      rw [hrec]
      cases r with
      | zero => simp
      | succ s =>
        simp [List.replicate_succ]
    | none =>
      dsimp only
      rw [hrec]
      cases r with
      | zero => simp
      | succ s =>
        simp [List.replicate_succ]

lemma clickSendAux_first_success (env : Nat → Option ClickRes) :
    ∀ k remaining attempt, k < remaining →
    succAt env (attempt + k) = true →
    (∀ i, i < k → succAt env (attempt + i) = false) →
    ∃ r, env (attempt + k) = some r ∧ r.success = true ∧
      clickSendAux env attempt remaining =
        (ClickOut.ok r, k + 1, List.replicate k 1000) := by
  intro k
  induction k with
  | zero =>
    intro remaining attempt hk hsucc _
    obtain ⟨r', hrem⟩ : ∃ r', remaining = r' + 1 := ⟨remaining - 1, by omega⟩
    subst hrem
    cases he : env attempt with
    | some rr =>
      have hrs : rr.success = true := by
        unfold succAt at hsucc
        simp only [Nat.add_zero] at hsucc
        rwa [he] at hsucc
      refine ⟨rr, by simpa using he, hrs, ?_⟩
      unfold clickSendAux
      rw [he]
      dsimp only
      rw [hrs]
      simp
    | none =>
      exfalso
      unfold succAt at hsucc
      simp only [Nat.add_zero] at hsucc
      rw [he] at hsucc
      exact Bool.false_ne_true hsucc
  | succ j ih =>
    intro remaining attempt hk hsucc hfail
    obtain ⟨r', hrem⟩ : ∃ r', remaining = r' + 1 := ⟨remaining - 1, by omega⟩
    subst hrem
    have h0 : succAt env attempt = false := by
      have := hfail 0 (Nat.succ_pos j)
      simpa using this
    have harr : attempt + (j + 1) = attempt + 1 + j := by omega
    obtain ⟨r, hr1, hr2, hr3⟩ := ih r' (attempt + 1) (by omega)
      (by rwa [harr] at hsucc)
      (by
        intro i hi
        have := hfail (i + 1) (by omega)
        have harr2 : attempt + (i + 1) = attempt + 1 + i := by omega
        rwa [harr2] at this)
    refine ⟨r, by rwa [harr], hr2, ?_⟩
    unfold clickSendAux
    cases he : env attempt with
    | some rr =>
      have hrs : rr.success = false := by
        unfold succAt at h0
        rwa [he] at h0
      dsimp only
      rw [hrs]
      simp only [Bool.false_eq_true, if_false]
      rw [hr3]
      have hr'pos : r' ≠ 0 := by omega
      simp [hr'pos, List.replicate_succ]
    | none =>
      dsimp only
      rw [hr3]
      have hr'pos : r' ≠ 0 := by omega
      simp [hr'pos, List.replicate_succ]

/-- C5: the `clickSend` submit step makes at most `retries` attempts
(default 10) with a fixed 1000 ms sleep between consecutive attempts:
if every attempt fails it makes exactly `retries` attempts with
`retries - 1` intervening sleeps and returns the terminal failure (not
a timeout); if attempt `k` is the first to report success it returns
that bridge result immediately after `k + 1` attempts and `k` sleeps,
with no further attempts or waits. -/
theorem c5_clickSend_retries (env : Nat → Option ClickRes) (retries : Nat) :
    ((∀ i, i < retries → succAt env i = false) →
      clickSendM env retries =
        (ClickOut.failedOut clickSendFailMsg, retries,
         List.replicate (retries - 1) 1000)) ∧
    (∀ k, k < retries → succAt env k = true →
      (∀ i, i < k → succAt env i = false) →
      ∃ r, env k = some r ∧ r.success = true ∧
        clickSendM env retries = (ClickOut.ok r, k + 1, List.replicate k 1000)) := by
  constructor
  · intro h
    unfold clickSendM
    exact clickSendAux_all_fail env retries 0 (by
      intro i hi
      simpa using h i hi)
  · intro k hk hsucc hfail
    unfold clickSendM
    obtain ⟨r, h1, h2, h3⟩ := clickSendAux_first_success env k retries 0 hk
      (by simpa using hsucc) (by
        intro i hi
        simpa using hfail i hi)
    exact ⟨r, by simpa using h1, h2, h3⟩

/-- C5 witness: with the bridge reporting "not found" on attempts 0 and
1 and success on attempt 2, `clickSend` succeeds on the third attempt
after two 1000 ms sleeps. -/
theorem c5_clickSend_retries_witness :
    ∃ r, (fun i => if i = 2 then some (⟨true, none⟩ : ClickRes)
        else some ⟨false, some "未找到 Send 按钮"⟩) 2 = some r ∧
      r.success = true ∧
      clickSendM (fun i => if i = 2 then some (⟨true, none⟩ : ClickRes)
        else some ⟨false, some "未找到 Send 按钮"⟩) 10 =
        (ClickOut.ok r, 3, List.replicate 2 1000) :=
  (c5_clickSend_retries (fun i => if i = 2 then some (⟨true, none⟩ : ClickRes)
    else some ⟨false, some "未找到 Send 按钮"⟩) 10).2 2 (by decide) (by decide)
    (by decide)

lemma decideAt_shape (env : WEnv) (bc el t : Nat) (out : WOut)
    (h : decideAt env bc el t = some out) :
    (∃ r, out = WOut.completed r el) ∨ (∃ m, out = WOut.failed m el) := by
  unfold decideAt botCheck at h
  cases he : env.err t with
  | some e =>
    rw [he] at h
    dsimp only at h
    by_cases hhas : e.hasError
    · rw [hhas] at h
      simp only [if_true] at h
      exact Or.inr ⟨e.errorText, (Option.some.inj h).symm⟩
    · rw [Bool.not_eq_true] at hhas
      rw [hhas] at h
      simp only [Bool.false_eq_true, if_false] at h
      cases hb : env.bot t with
      | some b =>
        rw [hb] at h
        dsimp only at h
        by_cases hcond : (bc < b.count ∧ b.text ≠ "") ∨ b.text ≠ ""
        · rw [if_pos hcond] at h
          exact Or.inl ⟨b.text, (Option.some.inj h).symm⟩
        · rw [if_neg hcond] at h
          exact absurd h (Option.noConfusion)
      | none =>
        rw [hb] at h
        exact absurd h (Option.noConfusion)
  | none =>
    rw [he] at h
    dsimp only at h
    cases hb : env.bot t with
    | some b =>
      rw [hb] at h
      dsimp only at h
      by_cases hcond : (bc < b.count ∧ b.text ≠ "") ∨ b.text ≠ ""
      · rw [if_pos hcond] at h
        exact Or.inl ⟨b.text, (Option.some.inj h).symm⟩
      · rw [if_neg hcond] at h
        exact absurd h (Option.noConfusion)
    | none =>
      rw [hb] at h
      exact absurd h (Option.noConfusion)

lemma loop2_sound (env : WEnv) (timeout pi bc : Nat) :
    ∀ fuel t out rt,
    loop2 env timeout pi bc fuel t = some (out, rt) →
    loop2Sound env timeout bc out rt := by
  intro fuel
  induction fuel with
  | zero =>
    intro t out rt h
    simp [loop2] at h
  | succ f ih =>
    intro t out rt h
    unfold loop2 at h
    by_cases ht : t < timeout
    · rw [if_pos ht] at h
      by_cases hv1 : env.vis (t + pi)
      · rw [hv1] at h
        simp only [if_true] at h
        by_cases hv2 : env.vis (t + pi + 1500)
        · rw [hv2] at h
          simp only [if_true] at h
          cases hd : decideAt env bc ((t + pi + 500) / 1000) (t + pi + 1500) with
          | some out' =>
            rw [hd] at h
            dsimp only at h
            obtain ⟨ho, hrt⟩ := Prod.mk.injEq .. ▸ Option.some.inj h
            subst ho hrt
            rcases decideAt_shape env bc _ _ out' hd with ⟨r, hsh⟩ | ⟨m, hsh⟩
            · subst hsh
              exact ⟨hv2, hd⟩
            · subst hsh
              exact ⟨hv2, hd⟩
          | none =>
            rw [hd] at h
            dsimp only at h
            exact ih _ _ _ h
        · rw [Bool.not_eq_true] at hv2
          rw [hv2] at h
          simp only [Bool.false_eq_true, if_false] at h
          exact ih _ _ _ h
      · rw [Bool.not_eq_true] at hv1
        rw [hv1] at h
        simp only [Bool.false_eq_true, if_false] at h
        exact ih _ _ _ h
    · rw [if_neg ht] at h
      obtain ⟨ho, hrt⟩ := Prod.mk.injEq .. ▸ Option.some.inj h
      subst hrt
      subst ho
      exact ⟨rfl, rfl, Nat.le_of_not_lt ht⟩

lemma loop2_total (env : WEnv) (timeout pi bc : Nat) (hpi : 1 ≤ pi) :
    ∀ fuel t, timeout - t < fuel →
    (loop2 env timeout pi bc fuel t).isSome := by
  intro fuel
  induction fuel with
  | zero => intro t h; omega
  | succ f ih =>
    intro t h
    unfold loop2
    by_cases ht : t < timeout
    · rw [if_pos ht]
      by_cases hv1 : env.vis (t + pi)
      · rw [hv1]
        simp only [if_true]
        by_cases hv2 : env.vis (t + pi + 1500)
        · rw [hv2]
          simp only [if_true]
          cases hd : decideAt env bc ((t + pi + 500) / 1000) (t + pi + 1500) with
          | some out' => simp
          | none =>
            dsimp only
            exact ih (t + pi + 1500) (by omega)
        · rw [Bool.not_eq_true] at hv2
          rw [hv2]
          simp only [Bool.false_eq_true, if_false]
          exact ih (t + pi + 1500) (by omega)
      · rw [Bool.not_eq_true] at hv1
        rw [hv1]
        simp only [Bool.false_eq_true, if_false]
        exact ih (t + pi) (by omega)
    · rw [if_neg ht]
      simp

lemma waitForReplyM_total (env : WEnv) (timeout pi : Nat) (hpi : 1 ≤ pi) :
    ∃ out rt, waitForReplyM env timeout pi = some (out, rt) := by
  have hs := loop2_total env timeout pi (baselineOf env) hpi (timeout + 1)
    (phase1End env.vis) (by omega)
  unfold waitForReplyM
  obtain ⟨⟨out, rt⟩, hx⟩ := Option.isSome_iff_exists.1 hs
  exact ⟨out, rt, hx⟩

lemma decideAt_completed (env : WEnv) (bc el t : Nat) (r : String) (e : Nat)
    (h : decideAt env bc el t = some (WOut.completed r e)) :
    errClear env t ∧ ∃ b, env.bot t = some b ∧ r = b.text ∧
      ((bc < b.count ∧ b.text ≠ "") ∨ b.text ≠ "") := by
  unfold decideAt botCheck at h
  have hbot : (match env.bot t with
      | some b =>
        if (bc < b.count ∧ b.text ≠ "") ∨ b.text ≠ "" then
          some (WOut.completed b.text el)
        else none
      | none => (none : Option WOut)) = some (WOut.completed r e) →
      ∃ b, env.bot t = some b ∧ r = b.text ∧
        ((bc < b.count ∧ b.text ≠ "") ∨ b.text ≠ "") := by
    intro hb
    cases hbb : env.bot t with
    | some b =>
      rw [hbb] at hb
      dsimp only at hb
      by_cases hcond : (bc < b.count ∧ b.text ≠ "") ∨ b.text ≠ ""
      · rw [if_pos hcond] at hb
        have := Option.some.inj hb
        exact ⟨b, rfl, (WOut.completed.injEq .. ▸ this).1.symm, hcond⟩
      · rw [if_neg hcond] at hb
        exact absurd hb Option.noConfusion
    | none =>
      rw [hbb] at hb
      exact absurd hb Option.noConfusion
  cases he : env.err t with
  | some e' =>
    rw [he] at h
    dsimp only at h
    by_cases hhas : e'.hasError
    · rw [hhas] at h
      simp only [if_true] at h
      exact absurd (Option.some.inj h) (by intro hh; exact WOut.noConfusion hh)
    · rw [Bool.not_eq_true] at hhas
      rw [hhas] at h
      simp only [Bool.false_eq_true, if_false] at h
      refine ⟨?_, hbot h⟩
      unfold errClear
      rw [he]
      exact hhas
  | none =>
    rw [he] at h
    dsimp only at h
    refine ⟨?_, hbot h⟩
    unfold errClear
    rw [he]
    trivial

/-- C3: a Completed outcome of `waitForReply` is produced exactly by the
source's reply condition: it arises only at a stable idle observation
with no server-side error, carrying the latest text `b.text`, with
`(count > baseline AND text non-empty) OR text non-empty` holding; and
at any post-debounce decision point with a bot read `b` and no error,
the decision returns Completed with `b.text` precisely when that
disjunction holds, and keeps polling (returns nothing) precisely when
it fails. -/
theorem c3_completed_condition :
    (∀ (env : WEnv) (timeout pollInterval : Nat) (r : String) (e rt : Nat),
      waitForReplyM env timeout pollInterval = some (WOut.completed r e, rt) →
      env.vis rt = true ∧ errClear env rt ∧
      ∃ b, env.bot rt = some b ∧ r = b.text ∧
        ((baselineOf env < b.count ∧ b.text ≠ "") ∨ b.text ≠ "")) ∧
    (∀ (env : WEnv) (bc el t : Nat) (b : BotData),
      env.bot t = some b → errClear env t →
      ((decideAt env bc el t = some (WOut.completed b.text el)) ↔
        ((bc < b.count ∧ b.text ≠ "") ∨ b.text ≠ "")) ∧
      ((decideAt env bc el t = none) ↔
        ¬((bc < b.count ∧ b.text ≠ "") ∨ b.text ≠ ""))) := by
  constructor
  · intro env timeout pollInterval r e rt h
    unfold waitForReplyM at h
    have hs := loop2_sound env timeout pollInterval (baselineOf env) _ _ _ _ h
    obtain ⟨hvis, hdec⟩ := hs
    obtain ⟨hclear, b, hb, hrb, hcond⟩ := decideAt_completed env _ _ _ _ _ hdec
    exact ⟨hvis, hclear, b, hb, hrb, hcond⟩
  · intro env bc el t b hb hclear
    have hd : decideAt env bc el t = botCheck env bc el t := by
      unfold decideAt
      unfold errClear at hclear
      cases he : env.err t with
      | some e' =>
        rw [he] at hclear
        dsimp only at hclear
        dsimp only
        rw [hclear]
        simp
      | none => rfl
    rw [hd]
    unfold botCheck
    rw [hb]
    dsimp only
    constructor
    · constructor
      · intro hsome
        by_cases hcond : (bc < b.count ∧ b.text ≠ "") ∨ b.text ≠ ""
        · exact hcond
        · rw [if_neg hcond] at hsome
          exact absurd hsome Option.noConfusion
      · intro hcond
        rw [if_pos hcond]
    · constructor
      · intro hnone hcond
        rw [if_pos hcond] at hnone
        exact Option.noConfusion hnone
      · intro hncond
        rw [if_neg hncond]

/-- A page that is always idle and error-free, with baseline count 1 at
time 0 and a new reply "ok" (count 2) afterwards. -/
def wEnvReply : WEnv :=
  { vis := fun _ => true,
    err := fun _ => none,
    bot := fun t => if t = 0 then some ⟨"", 1⟩ else some ⟨"ok", 2⟩ }

/-- C3 witness: on `wEnvReply`, `waitForReply(10000, 2000)` returns
Completed "ok" at elapsed 7 s, return time 8500, and the theorem yields
the reply condition there. -/
theorem c3_completed_condition_witness :
    wEnvReply.vis 8500 = true ∧ errClear wEnvReply 8500 ∧
    ∃ b, wEnvReply.bot 8500 = some b ∧ "ok" = b.text ∧
      ((baselineOf wEnvReply < b.count ∧ b.text ≠ "") ∨ b.text ≠ "") :=
  c3_completed_condition.1 wEnvReply 10000 2000 "ok" 7 8500 (by decide)

/-- C4: `waitForReply` never returns Completed while the idle indicator
is false at the moment of the debounce recheck: any Completed outcome
has the indicator true at its return time (the recheck instant); and
when the indicator flips back to false during the 1500 ms debounce, the
iteration is exactly equivalent to continuing the polling loop from the
post-debounce instant -- the idle observation is discarded. -/
theorem c4_debounce_recheck :
    (∀ (env : WEnv) (timeout pollInterval : Nat) (r : String) (e rt : Nat),
      waitForReplyM env timeout pollInterval = some (WOut.completed r e, rt) →
      env.vis rt = true) ∧
    (∀ (env : WEnv) (timeout pollInterval beforeCount fuel t : Nat),
      t < timeout → env.vis (t + pollInterval) = true →
      env.vis (t + pollInterval + 1500) = false →
      loop2 env timeout pollInterval beforeCount (fuel + 1) t =
        loop2 env timeout pollInterval beforeCount fuel (t + pollInterval + 1500)) := by
  constructor
  · intro env timeout pollInterval r e rt h
    unfold waitForReplyM at h
    have hs := loop2_sound env timeout pollInterval (baselineOf env) _ _ _ _ h
    exact hs.1
  · intro env timeout pollInterval bc fuel t ht hv1 hv2
    conv_lhs => rw [loop2]
    rw [if_pos ht, hv1]
    simp only [if_true]
    rw [hv2]
    simp only [Bool.false_eq_true, if_false]

/-- A page whose idle indicator is visible only at instant 2000: an
idle flicker that vanishes by the debounce recheck at 3500. -/
def wEnvFlicker : WEnv :=
  { vis := fun t => t == 2000,
    err := fun _ => none,
    bot := fun _ => none }

/-- C4 witness: a Completed run has the indicator true at the recheck
instant, and on the flicker page one polling iteration from t = 0
equals continuing from the post-debounce instant 3500. -/
theorem c4_debounce_recheck_witness :
    wEnvReply.vis 8500 = true ∧
    loop2 wEnvFlicker 4000 2000 0 6 0 = loop2 wEnvFlicker 4000 2000 0 5 3500 :=
  ⟨c4_debounce_recheck.1 wEnvReply 10000 2000 "ok" 7 8500 (by decide),
   c4_debounce_recheck.2 wEnvFlicker 4000 2000 0 5 0 (by decide) (by decide) (by decide)⟩

/-- C7: with a positive poll interval, `waitForReply` always returns,
and any run that produces neither a Completed nor a Failed outcome
returns the TimedOut outcome (success = false with the timeout error
message) carrying the best-effort reply read at the return time -- the
`text || null` of the final `getLastBotText`, possibly null -- with the
return time at or past the overall timeout. -/
theorem c7_timeout_outcome (env : WEnv) (timeout pollInterval : Nat)
    (hpi : 1 ≤ pollInterval) :
    ∃ out rt, waitForReplyM env timeout pollInterval = some (out, rt) ∧
      ((∃ r e, out = WOut.completed r e) ∨ (∃ m e, out = WOut.failed m e) ∨
       (out = WOut.timedOut (timeoutMsg timeout) (bestEffort env rt) ∧
        timeout ≤ rt)) := by
  obtain ⟨out, rt, hx⟩ := waitForReplyM_total env timeout pollInterval hpi
  refine ⟨out, rt, hx, ?_⟩
  unfold waitForReplyM at hx
  have hs := loop2_sound env timeout pollInterval (baselineOf env) _ _ _ _ hx
  cases out with
  | completed r e => exact Or.inl ⟨r, e, rfl⟩
  | failed m e => exact Or.inr (Or.inl ⟨m, e, rfl⟩)
  | timedOut m rep =>
    obtain ⟨hm, hrep, hle⟩ := hs
    subst hm
    subst hrep
    exact Or.inr (Or.inr ⟨rfl, hle⟩)

/-- A page that never reports idle and has no readable text. -/
def wEnvQuiet : WEnv :=
  { vis := fun _ => false,
    err := fun _ => none,
    bot := fun _ => none }

/-- C7 witness: on the never-idle page, `waitForReply(4000, 2000)`
times out with a null best-effort reply. -/
theorem c7_timeout_outcome_witness :
    ∃ out rt, waitForReplyM wEnvQuiet 4000 2000 = some (out, rt) ∧
      ((∃ r e, out = WOut.completed r e) ∨ (∃ m e, out = WOut.failed m e) ∨
       (out = WOut.timedOut (timeoutMsg 4000) (bestEffort wEnvQuiet rt) ∧
        4000 ≤ rt)) :=
  c7_timeout_outcome wEnvQuiet 4000 2000 (by decide)

/-- C10: `sendText` binds no variable to the result of its initial
`waitForIdle()` call and discards it: on a page that never becomes idle
the idle wait returns its timeout failure, yet the result and the steps
of `sendText` are identical to those on any other page -- it proceeds
to clear the input, and (when focusing succeeds) to insert the text and
click send, never aborting with the idle-wait error. -/
theorem c10_sendText_discards_idle (env : InjEnv) (v1 v2 : Nat → Bool)
    (text : String) (delay : Nat) :
    waitForIdleM (fun _ => false) 120000 = false ∧
    sendTextM { env with vis := v1 } text delay =
      sendTextM { env with vis := v2 } text delay ∧
    Step.clearStep ∈ (sendTextM env text delay).2 ∧
    ((setTextM env text).1.success = true →
      Step.insertTextStep text ∈ (sendTextM env text delay).2 ∧
      Step.clickStep ∈ (sendTextM env text delay).2) := by
  refine ⟨by decide, rfl, ?_, ?_⟩
  · rcases hf : env.focus with _ | f
    · simp [sendTextM, setTextM, hf]
    · by_cases hfs : f.success <;> simp [sendTextM, setTextM, hf, hfs]
  · intro hset
    rcases hf : env.focus with _ | f
    · simp [setTextM, hf] at hset
    · by_cases hfs : f.success
      · constructor <;> simp [sendTextM, setTextM, hf, hfs]
      · simp [setTextM, hf, hfs] at hset

/-- An injector environment where focusing and clicking succeed. -/
def injEnvHappy : InjEnv :=
  { vis := fun _ => true,
    focus := some ⟨true, none⟩,
    inputText := some "hello",
    click := fun _ => some ⟨true, none⟩ }

/-- C10 witness: with focusing succeeding, `sendText` performs the
insert-text and click steps. -/
theorem c10_sendText_discards_idle_witness :
    Step.insertTextStep "hello" ∈ (sendTextM injEnvHappy "hello" 300).2 ∧
    Step.clickStep ∈ (sendTextM injEnvHappy "hello" 300).2 :=
  (c10_sendText_discards_idle injEnvHappy (fun _ => true) (fun _ => false)
    "hello" 300).2.2.2 (by decide)
